import Mathlib

/-!
Verification of the flocking simulation engine in `src/kernel.cu`.

Shallow embedding conventions:
* `glm::vec3` (three 32-bit floats) is modelled as a triple of exact
  rationals (`V3`); float arithmetic is modelled exactly.
* Device buffers are modelled as total functions `ℤ → V3` / `ℤ → ℤ`;
  a CUDA kernel over `N` threads becomes a pointwise update (independent
  slots) or a left fold over the thread indices (when threads write to
  shared tables; in the sorted regime each table slot has a unique writer,
  so the fold order is immaterial and the fold is a faithful model of the
  race-free parallel execution).
* `glm::length v < r` (with `r ≥ 0`) is embedded as `normSq v < r * r`,
  the exact real-number semantics of the comparison.
* The one genuine square root (`glm::length` / `glm::normalize` inside
  `updateVelocities`) is modelled by an explicit parameter
  `rsqrt : ℚ → ℚ`; theorems that depend on its value assume it is exact
  at the (single) point where the code evaluates it.
* `thrust::sort_by_key` is modelled by an insertion sort on (key, value)
  pairs; the code's contract only requires some reordering by key
  (unstable sort is explicitly acceptable).
-/

namespace Boids

/-- Component of `glm::vec3`, with float components modelled as exact
rationals. -/
structure V3 where
  x : ℚ
  y : ℚ
  z : ℚ
deriving DecidableEq

instance : Add V3 := ⟨fun a b => ⟨a.x + b.x, a.y + b.y, a.z + b.z⟩⟩

instance : Sub V3 := ⟨fun a b => ⟨a.x - b.x, a.y - b.y, a.z - b.z⟩⟩

instance : Neg V3 := ⟨fun a => ⟨-a.x, -a.y, -a.z⟩⟩

instance : SMul ℚ V3 := ⟨fun c a => ⟨c * a.x, c * a.y, c * a.z⟩⟩

/-- Componentwise division of a `glm::vec3` by an `int` count
(`center /= neighborCount`). -/
def V3.divInt (v : V3) (n : ℤ) : V3 := ⟨v.x / n, v.y / n, v.z / n⟩

/-- Squared Euclidean norm; `glm::length v = √(normSq v)`. -/
def normSq (v : V3) : ℚ := v.x * v.x + v.y * v.y + v.z * v.z

/-! Simulation constants from the `#define` block of `kernel.cu`. -/

def rule1Distance : ℚ := 5

def rule2Distance : ℚ := 3

def rule3Distance : ℚ := 5

def rule1Scale : ℚ := 1/100

def rule2Scale : ℚ := 1/10

def rule3Scale : ℚ := 1/100

def maxSpeed : ℚ := 1

def scene_scale : ℚ := 100

def blockSize : ℤ := 128

def gridOOB : ℤ := -1

/-! Grid geometry, computed in `Boids::initSimulation` from the rule
distances and `scene_scale`. The C cast `(int)(scene_scale/gridCellWidth)`
truncates toward zero; the operand is positive, so it equals the floor. -/

def gridCellWidth : ℚ := 2 * max (max rule1Distance rule2Distance) rule3Distance

def halfSideCount : ℤ := ⌊scene_scale / gridCellWidth⌋ + 1

def gridSideCount : ℤ := 2 * halfSideCount

def gridCellCount : ℤ := gridSideCount * gridSideCount * gridSideCount

def gridInverseCellWidth : ℚ := 1 / gridCellWidth

def halfGridWidth : ℚ := gridCellWidth * (halfSideCount : ℚ)

def gridMinimum : V3 := ⟨0 - halfGridWidth, 0 - halfGridWidth, 0 - halfGridWidth⟩

/-- Number of threads launched for `kernResetIntBuffer`
(`fullGrids` blocks of `blockSize` threads, sized from `gridSideCount³`). -/
def resetLaunchThreads : ℤ := ((gridCellCount + blockSize - 1) / blockSize) * blockSize

/-- The list of integers `s, s+1, …, e-1` (empty when `e ≤ s`); the index
space of a C loop `for (int i = s; i < e; i++)`. -/
def intRange (s e : ℤ) : List ℤ :=
  (List.range (e - s).toNat).map (fun k : ℕ => s + (k : ℤ))

/-- Reads buffer contents from a list overlayed on slots `0 … length-1`
of the base memory `base`. -/
def overlay {α : Type} (l : List α) (base : ℤ → α) : ℤ → α :=
  fun i => if h : 0 ≤ i ∧ i.toNat < l.length then l.get ⟨i.toNat, h.2⟩ else base i

/-- Pointwise update of one slot of an int buffer. -/
def updateFun (f : ℤ → ℤ) (k v : ℤ) : ℤ → ℤ := fun i => if i = k then v else f i

/-- A 3-D grid coordinate (the code stores it in a float `glm::vec3` whose
components are integral after `glm::floor`, and casts to `int` at use). -/
structure G3 where
  x : ℤ
  y : ℤ
  z : ℤ
deriving DecidableEq

/-- `posToGrid` from `kernel.cu`: floor of `(pos - gridMin) * inverseCellWidth`
per axis, with a coordinate equal to `gridResolution` pulled back to
`gridResolution - 1`. -/
def posToGrid (pos gridMin : V3) (inverseCellWidth : ℚ) (gridResolution : ℤ) : G3 :=
  let gx := ⌊(pos.x - gridMin.x) * inverseCellWidth⌋
  let gy := ⌊(pos.y - gridMin.y) * inverseCellWidth⌋
  let gz := ⌊(pos.z - gridMin.z) * inverseCellWidth⌋
  let backOff := gridResolution - 1
  ⟨if gx = gridResolution then backOff else gx,
   if gy = gridResolution then backOff else gy,
   if gz = gridResolution then backOff else gz⟩

/-- `gridIndex3Dto1D` from `kernel.cu`. -/
def gridIndex3Dto1D (x y z gridResolution : ℤ) : ℤ :=
  if x < 0 ∨ x ≥ gridResolution ∨ y < 0 ∨ y ≥ gridResolution ∨
     z < 0 ∨ z ≥ gridResolution then gridOOB
  else x + y * gridResolution + z * gridResolution * gridResolution

/-- `posToGridIndex` from `kernel.cu`. -/
def posToGridIndex (pos gridMin : V3) (inverseCellWidth : ℚ) (gridResolution : ℤ) : ℤ :=
  let grid := posToGrid pos gridMin inverseCellWidth gridResolution
  gridIndex3Dto1D grid.x grid.y grid.z gridResolution

/-- Loop state of the candidate loops in `computeVelocityChange` /
`computeVelocityChangeInGrids`. -/
structure RuleAcc where
  neighborCount : ℤ
  center : V3
  separate : V3
  cohesion : V3
deriving DecidableEq

/-- Body of the candidate loop shared (textually duplicated) by
`computeVelocityChange` and `computeVelocityChangeInGrids`: the three
distance tests, each against the squared radius (`glm::length d < r` iff
`normSq d < r*r` for `r ≥ 0`). -/
def ruleStep (thisPos : V3) (a : RuleAcc) (thatPos thatVel : V3) : RuleAcc :=
  let d := normSq (thatPos - thisPos)
  let a1 := if d < rule1Distance * rule1Distance then
    { a with center := a.center + thatPos, neighborCount := a.neighborCount + 1 } else a
  let a2 := if d < rule2Distance * rule2Distance then
    { a1 with separate := a1.separate - (thatPos - thisPos) } else a1
  if d < rule3Distance * rule3Distance then
    { a2 with cohesion := a2.cohesion + thatVel } else a2

/-- Final combination after the candidate loop: average the cohesion
centre when any neighbor was in range, then sum the weighted terms. -/
def finishRules (thisPos : V3) (a : RuleAcc) : V3 :=
  let toCenter : V3 := if 0 < a.neighborCount
    then (a.center.divInt a.neighborCount) - thisPos else ⟨0, 0, 0⟩
  rule1Scale • toCenter + rule2Scale • a.separate + rule3Scale • a.cohesion

/-- `computeVelocityChange` from `kernel.cu` (the brute-force rule
evaluator over the contiguous candidate range `[start, stop)`); the
`particleArrayIndices` argument of the C function is never read by its
body and is omitted here. -/
def computeVelocityChange (start stop iSelf : ℤ) (pos vel : ℤ → V3) : V3 :=
  let thisPos := pos iSelf
  let a := (intRange start stop).foldl
    (fun acc i => if i = iSelf then acc else ruleStep thisPos acc (pos i) (vel i))
    ⟨0, ⟨0, 0, 0⟩, ⟨0, 0, 0⟩, ⟨0, 0, 0⟩⟩
  finishRules thisPos a

/-- `computeVelocityChangeInGrids` from `kernel.cu`: iterate over the 27
candidate cells, skip the out-of-bounds sentinel, and run the candidate
loop over each cell's `[start, end)` range, indirecting through
`indexToBoid` when it is non-null. -/
def computeVelocityChangeInGrids (gridsToSearch : List ℤ)
    (gridStartIndices gridEndIndices : ℤ → ℤ) (index : ℤ)
    (indexToBoid : Option (ℤ → ℤ)) (pos vel : ℤ → V3) : V3 :=
  let thisPos := pos index
  let a := gridsToSearch.foldl
    (fun acc grid =>
      if grid = gridOOB then acc
      else (intRange (gridStartIndices grid) (gridEndIndices grid)).foldl
        (fun acc2 i =>
          let boid := match indexToBoid with
            | some f => f i
            | none => i
          if boid = index then acc2
          else ruleStep thisPos acc2 (pos boid) (vel boid))
        acc)
    ⟨0, ⟨0, 0, 0⟩, ⟨0, 0, 0⟩, ⟨0, 0, 0⟩⟩
  finishRules thisPos a

/-- `updateVelocities` from `kernel.cu`. `rsqrt` stands for the float
square root used by `glm::length` / `glm::normalize`; `glm::normalize v =
(1/√(normSq v)) • v`, and the code overrides the normalized vector with 0
when `newVel` is exactly the zero vector. Returns the value written to
`vel2[index]`. -/
def updateVelocities (rsqrt : ℚ → ℚ) (vel1 : ℤ → V3) (acceleration : V3)
    (index : ℤ) : V3 :=
  let newVel := vel1 index + acceleration
  let currentSpeed := rsqrt (normSq newVel)
  let speed := min currentSpeed maxSpeed
  let norm := if newVel.x = 0 ∧ newVel.y = 0 ∧ newVel.z = 0 then ⟨0, 0, 0⟩
    else (1 / currentSpeed) • newVel
  speed • norm

/-- Per-axis lower wraparound of `kernUpdatePos`. -/
def wrapLow (t : ℚ) : ℚ := if t < -scene_scale then scene_scale else t

/-- Per-axis upper wraparound of `kernUpdatePos` (applied after `wrapLow`,
as in the code). -/
def wrapHigh (t : ℚ) : ℚ := if t > scene_scale then -scene_scale else t

/-- Body of `kernUpdatePos` for one agent: integrate by `dt`, then wrap
each axis independently (all lower checks precede all upper checks, as in
the code; the axes are independent). -/
def kernUpdatePosBody (dt : ℚ) (p v : V3) : V3 :=
  let tp := p + dt • v
  ⟨wrapHigh (wrapLow tp.x), wrapHigh (wrapLow tp.y), wrapHigh (wrapLow tp.z)⟩

/-- Thread body of `kernIdentifyCellStartEnd` (the writes performed by the
thread with the given `index`), acting on the pair (start table, end
table). -/
def identifyBody (N : ℤ) (gridIdx : ℤ → ℤ) (tables : (ℤ → ℤ) × (ℤ → ℤ))
    (index : ℤ) : (ℤ → ℤ) × (ℤ → ℤ) :=
  let S := tables.1
  let E := tables.2
  let thisGrid := gridIdx index
  if index = 0 then (updateFun S thisGrid 0, E)
  else
    let prevGrid := gridIdx (index - 1)
    if index = N - 1 then
      if thisGrid ≠ prevGrid then
        (updateFun S thisGrid index, updateFun E thisGrid index)
      else (S, updateFun E thisGrid index)
    else if thisGrid ≠ prevGrid then
      (updateFun S thisGrid index, updateFun E prevGrid index)
    else (S, E)

/-- `kernIdentifyCellStartEnd` over all thread indices `0 … N-1`. In the
sorted regime each table slot has a unique writing thread, so the
sequential fold models the data-race-free parallel execution. -/
def identifyCellStartEnd (N : ℤ) (gridIdx : ℤ → ℤ) (S E : ℤ → ℤ) :
    (ℤ → ℤ) × (ℤ → ℤ) :=
  (intRange 0 N).foldl (identifyBody N gridIdx) (S, E)

/-- Effect of the `kernResetIntBuffer` launch: the kernel guard is
`index < n`, and at most `threads` threads exist, so exactly the slots
`0 … min n threads - 1` are written. -/
def resetIntBuffer (threads n : ℤ) (buf : ℤ → ℤ) (value : ℤ) : ℤ → ℤ :=
  fun i => if 0 ≤ i ∧ i < min n threads then value else buf i

/-- Stable insertion of a (key, value) pair, keeping keys non-decreasing. -/
def insertPair (p : ℤ × ℤ) : List (ℤ × ℤ) → List (ℤ × ℤ)
  | [] => [p]
  | q :: t => if p.1 ≤ q.1 then p :: q :: t else q :: insertPair p t

/-- Model of `thrust::sort_by_key`: sort (key, value) pairs by key. The
code's contract allows any reordering by key (the sort need not be
stable), which insertion sort satisfies. -/
def sortByKey : List (ℤ × ℤ) → List (ℤ × ℤ)
  | [] => []
  | p :: t => insertPair p (sortByKey t)

/-- The 27 cell ids examined by `updateVelNeighborSearch`, in the order
the search loop reads them: slot `n` of the C array `gridsToSearch` holds
the cell at offset `(x, y, z) = (n % 3 - 1, n / 3 % 3 - 1, n / 9 - 1)`
(the slot each offset is stored at via `gridIndex3Dto1D(x+1, y+1, z+1, 3)`). -/
def gridsToSearch (g : G3) (gridResolution : ℤ) : List ℤ :=
  (List.range 27).map (fun n =>
    gridIndex3Dto1D (g.x + (n % 3 : ℕ) - 1) (g.y + ((n / 3) % 3 : ℕ) - 1)
      (g.z + (n / 9 : ℕ) - 1) gridResolution)

/-- `updateVelNeighborSearch` from `kernel.cu` for one agent: locate the
home cell, enumerate the 3×3×3 block, evaluate the rules over the per-cell
ranges and clamp the resulting velocity. Returns the value written to
`vel2[index]`. -/
def updateVelNeighborSearch (rsqrt : ℚ → ℚ) (gridResolution : ℤ) (gridMin : V3)
    (inverseCellWidth : ℚ) (gridCellStartIndices gridCellEndIndices : ℤ → ℤ)
    (indexToBoid : Option (ℤ → ℤ)) (pos vel1 : ℤ → V3) (index : ℤ) : V3 :=
  let thisGrid := posToGrid (pos index) gridMin inverseCellWidth gridResolution
  let gs := gridsToSearch thisGrid gridResolution
  let acceleration := computeVelocityChangeInGrids gs
    gridCellStartIndices gridCellEndIndices index indexToBoid pos vel1
  updateVelocities rsqrt vel1 acceleration index

/-- The device state of the engine: `numObjects` plus the nine buffers
allocated by `Boids::initSimulation` (buffers modelled as total functions;
slots outside the allocated range never influence the observable agents). -/
structure SimState where
  numObjects : ℕ
  pos : ℤ → V3
  vel1 : ℤ → V3
  vel2 : ℤ → V3
  sortedPos : ℤ → V3
  sortedVel : ℤ → V3
  particleArrayIndices : ℤ → ℤ
  particleGridIndices : ℤ → ℤ
  gridCellStartIndices : ℤ → ℤ
  gridCellEndIndices : ℤ → ℤ

/-- Output of the common prefix of the two grid steps: post-sort grid ids
and array indices, and the derived start/end tables. -/
structure GridData where
  gridIdx : ℤ → ℤ
  arrIdx : ℤ → ℤ
  cellStart : ℤ → ℤ
  cellEnd : ℤ → ℤ

/-- The pipeline shared verbatim by `stepSimulationScatteredGrid` and
`stepSimulationCoherentGrid`: `kernComputeIndices`, the key sort, the two
`kernResetIntBuffer` launches (note: the code passes `numObjects`, not
`gridCellCount`, as the reset bound) and `kernIdentifyCellStartEnd`. -/
def gridPipeline (s : SimState) : GridData :=
  let N : ℤ := s.numObjects
  let gridIdx1 : ℤ → ℤ := fun i => if 0 ≤ i ∧ i < N
    then posToGridIndex (s.pos i) gridMinimum gridInverseCellWidth gridSideCount
    else s.particleGridIndices i
  let arrIdx1 : ℤ → ℤ := fun i => if 0 ≤ i ∧ i < N then i else s.particleArrayIndices i
  let pairs := (List.range s.numObjects).map (fun i : ℕ => (gridIdx1 (i : ℤ), (i : ℤ)))
  let sorted := sortByKey pairs
  let gridIdx2 := overlay (sorted.map Prod.fst) gridIdx1
  let arrIdx2 := overlay (sorted.map Prod.snd) arrIdx1
  let S0 := resetIntBuffer resetLaunchThreads N s.gridCellStartIndices (-1)
  let E0 := resetIntBuffer resetLaunchThreads N s.gridCellEndIndices (-1)
  let SE := identifyCellStartEnd N gridIdx2 S0 E0
  ⟨gridIdx2, arrIdx2, SE.1, SE.2⟩

/-- `Boids::stepSimulationNaive`: brute-force velocity update, position
integration with the new velocities, then the velocity ping-pong swap. -/
def stepSimulationNaive (rsqrt : ℚ → ℚ) (dt : ℚ) (s : SimState) : SimState :=
  let N : ℤ := s.numObjects
  let vel2 : ℤ → V3 := fun i => if 0 ≤ i ∧ i < N
    then updateVelocities rsqrt s.vel1 (computeVelocityChange 0 N i s.pos s.vel1) i
    else s.vel2 i
  let pos : ℤ → V3 := fun i => if 0 ≤ i ∧ i < N
    then kernUpdatePosBody dt (s.pos i) (vel2 i) else s.pos i
  { s with pos := pos, vel1 := vel2, vel2 := s.vel1 }

/-- `Boids::stepSimulationScatteredGrid`. -/
def stepSimulationScatteredGrid (rsqrt : ℚ → ℚ) (dt : ℚ) (s : SimState) : SimState :=
  let N : ℤ := s.numObjects
  let gd := gridPipeline s
  let vel2 : ℤ → V3 := fun i => if 0 ≤ i ∧ i < N
    then updateVelNeighborSearch rsqrt gridSideCount gridMinimum gridInverseCellWidth
      gd.cellStart gd.cellEnd (some gd.arrIdx) s.pos s.vel1 i
    else s.vel2 i
  let pos : ℤ → V3 := fun i => if 0 ≤ i ∧ i < N
    then kernUpdatePosBody dt (s.pos i) (vel2 i) else s.pos i
  { s with
      pos := pos, vel1 := vel2, vel2 := s.vel1,
      particleArrayIndices := gd.arrIdx, particleGridIndices := gd.gridIdx,
      gridCellStartIndices := gd.cellStart, gridCellEndIndices := gd.cellEnd }

/-- `Boids::stepSimulationCoherentGrid`: the shared pipeline, then
`kernSortPosVel` reorders position/velocity into sorted order, the
coherent neighbor search runs without indirection, positions are
integrated in the sorted buffer, and finally `dev_pos`/`dev_sortedPos`
and `dev_vel1`/`dev_vel2` are swapped. -/
def stepSimulationCoherentGrid (rsqrt : ℚ → ℚ) (dt : ℚ) (s : SimState) : SimState :=
  let N : ℤ := s.numObjects
  let gd := gridPipeline s
  let sortedPos : ℤ → V3 := fun i => if 0 ≤ i ∧ i < N
    then s.pos (gd.arrIdx i) else s.sortedPos i
  let sortedVel : ℤ → V3 := fun i => if 0 ≤ i ∧ i < N
    then s.vel1 (gd.arrIdx i) else s.sortedVel i
  let vel2 : ℤ → V3 := fun i => if 0 ≤ i ∧ i < N
    then updateVelNeighborSearch rsqrt gridSideCount gridMinimum gridInverseCellWidth
      gd.cellStart gd.cellEnd none sortedPos sortedVel i
    else s.vel2 i
  let posIntegrated : ℤ → V3 := fun i => if 0 ≤ i ∧ i < N
    then kernUpdatePosBody dt (sortedPos i) (vel2 i) else sortedPos i
  { numObjects := s.numObjects,
    pos := posIntegrated, sortedPos := s.pos,
    vel1 := vel2, vel2 := s.vel1,
    sortedVel := sortedVel,
    particleArrayIndices := gd.arrIdx, particleGridIndices := gd.gridIdx,
    gridCellStartIndices := gd.cellStart, gridCellEndIndices := gd.cellEnd }

/-- The three neighbor-search strategies of `Boids::stepSimulation*`. -/
inductive Strategy
  | naive
  | scattered
  | coherent
deriving DecidableEq

/-- Dispatch one simulation step by strategy. -/
def stepSimulation (rsqrt : ℚ → ℚ) (strat : Strategy) (dt : ℚ) (s : SimState) : SimState :=
  match strat with
  | Strategy.naive => stepSimulationNaive rsqrt dt s
  | Strategy.scattered => stepSimulationScatteredGrid rsqrt dt s
  | Strategy.coherent => stepSimulationCoherentGrid rsqrt dt s

/-- Run a finite sequence of steps (strategy and `dt` per step). -/
def runSteps (rsqrt : ℚ → ℚ) (steps : List (Strategy × ℚ)) (s : SimState) : SimState :=
  steps.foldl (fun st p => stepSimulation rsqrt p.1 p.2 st) s

/-- Uninitialized device memory contents at allocation time (arbitrary). -/
structure MemInit where
  pos : ℤ → V3
  vel1 : ℤ → V3
  vel2 : ℤ → V3
  sortedPos : ℤ → V3
  sortedVel : ℤ → V3
  particleArrayIndices : ℤ → ℤ
  particleGridIndices : ℤ → ℤ
  gridCellStartIndices : ℤ → ℤ
  gridCellEndIndices : ℤ → ℤ

/-- `Boids::initSimulation`: allocates the nine buffers and fills
`dev_pos[0 … N-1]` with `scene_scale • rand i`. `rand` models the
per-agent output of `generateRandomVec3` (a thrust
`uniform_real_distribution(-1, 1)` — library code external to this
repository, whose components lie in `[-1, 1]`); every other buffer keeps
its uninitialized contents `m`. -/
def initSimulation (N : ℕ) (rand : ℤ → V3) (m : MemInit) : SimState :=
  { numObjects := N,
    pos := fun i => if 0 ≤ i ∧ i < (N : ℤ) then scene_scale • rand i else m.pos i,
    vel1 := m.vel1, vel2 := m.vel2,
    sortedPos := m.sortedPos, sortedVel := m.sortedVel,
    particleArrayIndices := m.particleArrayIndices,
    particleGridIndices := m.particleGridIndices,
    gridCellStartIndices := m.gridCellStartIndices,
    gridCellEndIndices := m.gridCellEndIndices }

/-! Concrete inputs used by counterexample and witness theorems. -/

/-- A cell-id buffer read from a list (slot `i` holds element `i`;
slots outside the list hold `-1`). -/
def listToFun (l : List ℤ) : ℤ → ℤ :=
  fun i => if h : 0 ≤ i ∧ i.toNat < l.length then l.get ⟨i.toNat, h.2⟩ else -1

/-- A cell table holding the sentinel everywhere. -/
def negTable : ℤ → ℤ := fun _ => -1

/-- Two agents, at the origin and at `(1,0,0)` (both in grid cell 5577),
with zero velocities and sentinel-filled cell tables. -/
def twoAgentState : SimState :=
  { numObjects := 2,
    pos := fun i => if i = 1 then ⟨1, 0, 0⟩ else ⟨0, 0, 0⟩,
    vel1 := fun _ => ⟨0, 0, 0⟩, vel2 := fun _ => ⟨0, 0, 0⟩,
    sortedPos := fun _ => ⟨0, 0, 0⟩, sortedVel := fun _ => ⟨0, 0, 0⟩,
    particleArrayIndices := fun _ => 0, particleGridIndices := fun _ => 0,
    gridCellStartIndices := fun _ => -1, gridCellEndIndices := fun _ => -1 }

/-- A square root function exact at the only values this run needs
(the squared speeds `81/10000` and `0`). -/
def rsqrtTwoAgent : ℚ → ℚ := fun q => if q = 81/10000 then 9/100 else 0

/-- The two-agent state with stale (non-sentinel) cell tables, as left
behind by earlier steps or by the initial allocation. -/
def staleTableState : SimState :=
  { twoAgentState with
      gridCellStartIndices := fun _ => 7, gridCellEndIndices := fun _ => 7 }

/-- One agent at the origin with zero velocity and sentinel-filled tables. -/
def oneAgentState : SimState :=
  { numObjects := 1,
    pos := fun _ => ⟨0, 0, 0⟩,
    vel1 := fun _ => ⟨0, 0, 0⟩, vel2 := fun _ => ⟨0, 0, 0⟩,
    sortedPos := fun _ => ⟨0, 0, 0⟩, sortedVel := fun _ => ⟨0, 0, 0⟩,
    particleArrayIndices := fun _ => 0, particleGridIndices := fun _ => 0,
    gridCellStartIndices := fun _ => -1, gridCellEndIndices := fun _ => -1 }

/-- All-zero uninitialized memory, for witness states. -/
def zeroMem : MemInit :=
  { pos := fun _ => ⟨0, 0, 0⟩, vel1 := fun _ => ⟨0, 0, 0⟩, vel2 := fun _ => ⟨0, 0, 0⟩,
    sortedPos := fun _ => ⟨0, 0, 0⟩, sortedVel := fun _ => ⟨0, 0, 0⟩,
    particleArrayIndices := fun _ => 0, particleGridIndices := fun _ => 0,
    gridCellStartIndices := fun _ => 0, gridCellEndIndices := fun _ => 0 }

/-! The device buffers allocated by `Boids::initSimulation` and released by
`Boids::endSimulation`. -/

/-- The nine named device buffers of the engine. -/
inductive Buffer
  | pos
  | vel1
  | vel2
  | particleArrayIndices
  | particleGridIndices
  | gridCellStartIndices
  | gridCellEndIndices
  | sortedPos
  | sortedVel
deriving DecidableEq

/-- The buffers `Boids::initSimulation` allocates with `cudaMalloc`,
in program order. -/
def allocatedBuffers : List Buffer :=
  [Buffer.pos, Buffer.vel1, Buffer.vel2,
   Buffer.particleArrayIndices, Buffer.particleGridIndices,
   Buffer.gridCellStartIndices, Buffer.gridCellEndIndices,
   Buffer.sortedPos, Buffer.sortedVel]

/-- The buffers `Boids::endSimulation` passes to `cudaFree`, in program
order. -/
def freedBuffers : List Buffer :=
  [Buffer.vel1, Buffer.vel2, Buffer.pos, Buffer.sortedPos]

/-! Spec-side definitions, modelled from the specification's wording, for
refinement comparisons against the embedded code. -/

/-- Per-axis wraparound as the spec words it: a coordinate strictly above
the positive scene bound resets to the negative bound; strictly below the
negative bound resets to the positive bound; otherwise unchanged. -/
def wrapAxisSpec (t : ℚ) : ℚ :=
  if t > scene_scale then -scene_scale
  else if t < -scene_scale then scene_scale
  else t

/-- All three coordinates within `[-sceneScale, sceneScale]`. -/
def inBoundsV (p : V3) : Prop :=
  -scene_scale ≤ p.x ∧ p.x ≤ scene_scale ∧
  -scene_scale ≤ p.y ∧ p.y ≤ scene_scale ∧
  -scene_scale ≤ p.z ∧ p.z ≤ scene_scale

/-- Sum of a list of vectors. -/
def sumV3 (l : List V3) : V3 := l.foldr (fun v acc => v + acc) ⟨0, 0, 0⟩

/-- The candidates of `cands` strictly within distance `r` of agent
`self` (Euclidean distance, compared via squares). -/
def closeFilter (r : ℚ) (self : ℤ) (pos : ℤ → V3) (cands : List ℤ) : List ℤ :=
  cands.filter (fun i => normSq (pos i - pos self) < r * r)

/-- Cohesion term as the spec words it: the average position of the
candidates strictly within `R1`, minus the agent's own position, times
`W1`; zero when no candidate is within `R1`. -/
def specCohesion (cands : List ℤ) (self : ℤ) (pos : ℤ → V3) : V3 :=
  let close := closeFilter rule1Distance self pos cands
  if close.length = 0 then ⟨0, 0, 0⟩
  else rule1Scale • ((sumV3 (close.map pos)).divInt close.length - pos self)

/-- Separation term as the spec words it: the negative sum of
`candidate position - self position` over candidates strictly within
`R2`, times `W2`. -/
def specSeparation (cands : List ℤ) (self : ℤ) (pos : ℤ → V3) : V3 :=
  rule2Scale • (-(sumV3 ((closeFilter rule2Distance self pos cands).map
    (fun i => pos i - pos self))))

/-- Alignment term as the spec words it: the sum of candidate velocities
over candidates strictly within `R3`, times `W3`. -/
def specAlignment (cands : List ℤ) (self : ℤ) (pos vel : ℤ → V3) : V3 :=
  rule3Scale • sumV3 ((closeFilter rule3Distance self pos cands).map vel)

/-- The candidate boid ids a grid search visits: for every non-sentinel
cell of `gs`, the boid ids of its `[start, end)` range (through the
indirection when present), the agent itself excluded. -/
def gridCandidates (gs : List ℤ) (S E : ℤ → ℤ) (indexToBoid : Option (ℤ → ℤ))
    (index : ℤ) : List ℤ :=
  (((gs.filter (fun g => g ≠ gridOOB)).flatMap
    (fun g => (intRange (S g) (E g)).map (fun i =>
      match indexToBoid with
      | some f => f i
      | none => i))).filter (fun b => b ≠ index))

/-- Invariant of the `kernIdentifyCellStartEnd` fold after the threads
`0 … t-1` have run, starting from sentinel-filled tables: every written
bound lies in `[0, N)`, every cell occurring among the first `t` sorted
slots has a written start bound, and only occurring cells have a written
end bound. -/
def IdentifyInv (N : ℤ) (g : ℤ → ℤ) (t : ℤ) (SE : (ℤ → ℤ) × (ℤ → ℤ)) : Prop :=
  (∀ c, SE.1 c = -1 ∨ (0 ≤ SE.1 c ∧ SE.1 c < N)) ∧
  (∀ c, SE.2 c = -1 ∨ (0 ≤ SE.2 c ∧ SE.2 c < N)) ∧
  (∀ c, (∃ p : ℤ, 0 ≤ p ∧ p < t ∧ g p = c) → (0 ≤ SE.1 c ∧ SE.1 c < N)) ∧
  (∀ c, SE.2 c ≠ -1 → ∃ p : ℤ, 0 ≤ p ∧ p < t ∧ g p = c)

end Boids

namespace Boids

/-! Evaluated grid geometry (the constants the code computes at
`initSimulation` time, as exact values). -/

/-! Computation lemmas: componentwise `V3` arithmetic and explicit
`intRange` expansion, so that `simp` / `norm_num` can evaluate the
embedded kernels on concrete inputs. -/

@[simp] lemma V3.add_mk (a b c d e f : ℚ) :
    (⟨a, b, c⟩ : V3) + ⟨d, e, f⟩ = ⟨a + d, b + e, c + f⟩ := rfl

@[simp] lemma V3.sub_mk (a b c d e f : ℚ) :
    (⟨a, b, c⟩ : V3) - ⟨d, e, f⟩ = ⟨a - d, b - e, c - f⟩ := rfl

@[simp] lemma V3.smul_mk (r a b c : ℚ) :
    r • (⟨a, b, c⟩ : V3) = ⟨r * a, r * b, r * c⟩ := rfl

@[simp] lemma V3.divInt_mk (a b c : ℚ) (n : ℤ) :
    (⟨a, b, c⟩ : V3).divInt n = ⟨a / n, b / n, c / n⟩ := rfl

@[simp] lemma normSq_mk (a b c : ℚ) :
    normSq ⟨a, b, c⟩ = a * a + b * b + c * c := rfl

lemma intRange_eq_nil {s e : ℤ} (h : e ≤ s) : intRange s e = [] := by
  simp [intRange, Int.toNat_of_nonpos (by omega : e - s ≤ 0)]

lemma intRange_eq_cons {s e : ℤ} (h : s < e) :
    intRange s e = s :: intRange (s + 1) e := by
  have h1 : (e - s).toNat = (e - (s + 1)).toNat + 1 := by omega
  simp only [intRange, h1, List.range_succ_eq_map, List.map_cons, List.map_map]
  refine congrArg₂ _ (by omega) (List.map_congr_left fun k _ => ?_)
  simp [Function.comp]
  omega

lemma gridCellWidth_eq : gridCellWidth = 10 := by
  norm_num [gridCellWidth, rule1Distance, rule2Distance, rule3Distance]

lemma halfSideCount_eq : halfSideCount = 11 := by
  norm_num [halfSideCount, gridCellWidth_eq, scene_scale]

lemma gridSideCount_eq : gridSideCount = 22 := by
  norm_num [gridSideCount, halfSideCount_eq]

lemma gridCellCount_eq : gridCellCount = 10648 := by
  norm_num [gridCellCount, gridSideCount_eq]

lemma resetLaunchThreads_eq : resetLaunchThreads = 10752 := by
  norm_num [resetLaunchThreads, gridCellCount_eq, blockSize]

lemma gridInverseCellWidth_eq : gridInverseCellWidth = 1/10 := by
  norm_num [gridInverseCellWidth, gridCellWidth_eq]

lemma halfGridWidth_eq : halfGridWidth = 110 := by
  norm_num [halfGridWidth, gridCellWidth_eq, halfSideCount_eq]

lemma gridMinimum_eq : gridMinimum = ⟨-110, -110, -110⟩ := by
  simp [gridMinimum, halfGridWidth_eq]

lemma cell_of_origin :
    posToGridIndex ⟨0, 0, 0⟩ gridMinimum gridInverseCellWidth gridSideCount = 5577 := by
  norm_num [posToGridIndex, posToGrid, gridIndex3Dto1D, gridMinimum_eq,
    gridInverseCellWidth_eq, gridSideCount_eq]

lemma cell_of_unitX :
    posToGridIndex ⟨1, 0, 0⟩ gridMinimum gridInverseCellWidth gridSideCount = 5577 := by
  norm_num [posToGridIndex, posToGrid, gridIndex3Dto1D, gridMinimum_eq,
    gridInverseCellWidth_eq, gridSideCount_eq]

/-! Generic fold helpers. -/

lemma foldl_fixed {α β : Type} {l : List α} {f : β → α → β} {a : β}
    (h : ∀ b x, x ∈ l → f b x = b) : l.foldl f a = a := by
  induction l generalizing a with
  | nil => rfl
  | cons x t ih =>
    rw [List.foldl_cons, h a x (by simp)]
    exact ih (fun b y hy => h b y (by simp [hy]))

lemma cvcGrids_allSkip (gs : List ℤ) (S E : ℤ → ℤ) (index : ℤ)
    (boidOf : ℤ → ℤ) (pos vel : ℤ → V3)
    (h : ∀ g ∈ gs, g ≠ gridOOB → ∀ i ∈ intRange (S g) (E g), boidOf i = index) :
    computeVelocityChangeInGrids gs S E index (some boidOf) pos vel =
      finishRules (pos index) ⟨0, ⟨0, 0, 0⟩, ⟨0, 0, 0⟩, ⟨0, 0, 0⟩⟩ := by
  simp only [computeVelocityChangeInGrids]
  refine congrArg _ (foldl_fixed ?_)
  intro b g hg
  by_cases hOOB : g = gridOOB
  · simp [hOOB]
  · simp only [hOOB, if_false]
    exact foldl_fixed (fun b2 i hi => by simp [h g hg hOOB i hi])

lemma cvcGrids_allSkipNone (gs : List ℤ) (S E : ℤ → ℤ) (index : ℤ)
    (pos vel : ℤ → V3)
    (h : ∀ g ∈ gs, g ≠ gridOOB → ∀ i ∈ intRange (S g) (E g), i = index) :
    computeVelocityChangeInGrids gs S E index none pos vel =
      finishRules (pos index) ⟨0, ⟨0, 0, 0⟩, ⟨0, 0, 0⟩, ⟨0, 0, 0⟩⟩ := by
  simp only [computeVelocityChangeInGrids]
  refine congrArg _ (foldl_fixed ?_)
  intro b g hg
  by_cases hOOB : g = gridOOB
  · simp [hOOB]
  · simp only [hOOB, if_false]
    exact foldl_fixed (fun b2 i hi => by simp [h g hg hOOB i hi])

lemma finishRules_zeroAcc (p : V3) :
    finishRules p ⟨0, ⟨0, 0, 0⟩, ⟨0, 0, 0⟩, ⟨0, 0, 0⟩⟩ = ⟨0, 0, 0⟩ := by
  simp [finishRules]

/-! Evaluation of the two-agent scenario. -/

lemma grid_of_origin :
    posToGrid ⟨0, 0, 0⟩ gridMinimum gridInverseCellWidth 22 = ⟨11, 11, 11⟩ := by
  norm_num [posToGrid, gridMinimum_eq, gridInverseCellWidth_eq]

lemma gts_center : gridsToSearch ⟨11, 11, 11⟩ 22 =
    [5070, 5071, 5072, 5092, 5093, 5094, 5114, 5115, 5116, 5554, 5555, 5556,
     5576, 5577, 5578, 5598, 5599, 5600, 6038, 6039, 6040, 6060, 6061, 6062,
     6082, 6083, 6084] := by decide

lemma two_pipeline : gridPipeline twoAgentState =
    ⟨(fun i => if i = 0 ∨ i = 1 then 5577 else 0),
     (fun i => if i = 1 then 1 else 0),
     updateFun negTable 5577 0,
     updateFun negTable 5577 1⟩ := by
  have hpairs : (List.range twoAgentState.numObjects).map
      (fun i : ℕ => ((fun j : ℤ => if 0 ≤ j ∧ j < (twoAgentState.numObjects : ℤ)
        then posToGridIndex (twoAgentState.pos j) gridMinimum gridInverseCellWidth gridSideCount
        else twoAgentState.particleGridIndices j) (i : ℤ), (i : ℤ)))
      = [(5577, 0), (5577, 1)] := by
    norm_num [twoAgentState, List.range_succ, cell_of_origin, cell_of_unitX]
  have hg : (overlay [(5577:ℤ), 5577] fun i : ℤ =>
      if 0 ≤ i ∧ i < (twoAgentState.numObjects : ℤ)
      then posToGridIndex (twoAgentState.pos i) gridMinimum gridInverseCellWidth gridSideCount
      else twoAgentState.particleGridIndices i)
      = fun i => if i = 0 ∨ i = 1 then 5577 else 0 := by
    funext i
    rcases eq_or_ne i 0 with rfl | h0
    · norm_num [overlay]
    rcases eq_or_ne i 1 with rfl | h1
    · norm_num [overlay]
    have hc : ¬(0 ≤ i ∧ i.toNat < 2) := by omega
    have hc2 : ¬(0 ≤ i ∧ i < (2:ℤ)) := by omega
    simp [overlay, hc, hc2, twoAgentState, h0, h1]
  have ha : (overlay [(0:ℤ), 1] fun i : ℤ =>
      if 0 ≤ i ∧ i < (twoAgentState.numObjects : ℤ)
      then i else twoAgentState.particleArrayIndices i)
      = fun i => if i = 1 then 1 else 0 := by
    funext i
    rcases eq_or_ne i 0 with rfl | h0
    · norm_num [overlay]
    rcases eq_or_ne i 1 with rfl | h1
    · norm_num [overlay]
    have hc : ¬(0 ≤ i ∧ i.toNat < 2) := by omega
    have hc2 : ¬(0 ≤ i ∧ i < (2:ℤ)) := by omega
    simp [overlay, hc, hc2, twoAgentState, h0, h1]
  have hrS : resetIntBuffer resetLaunchThreads (twoAgentState.numObjects : ℤ)
      twoAgentState.gridCellStartIndices (-1) = negTable := by
    funext c; simp [resetIntBuffer, twoAgentState, negTable]
  have hrE : resetIntBuffer resetLaunchThreads (twoAgentState.numObjects : ℤ)
      twoAgentState.gridCellEndIndices (-1) = negTable := by
    funext c; simp [resetIntBuffer, twoAgentState, negTable]
  have hN : (twoAgentState.numObjects : ℤ) = 2 := by norm_num [twoAgentState]
  have h02 : intRange 0 2 = [0, 1] := by decide
  simp only [gridPipeline, hpairs]
  norm_num [sortByKey, insertPair]
  rw [hg, ha, hrS, hrE, hN]
  refine ⟨rfl, rfl, ?_, ?_⟩ <;>
    norm_num [identifyCellStartEnd, h02, identifyBody, updateFun, negTable]

lemma intRange_02 : intRange 0 2 = [0, 1] := by decide

lemma cvc_naive_agent0 :
    computeVelocityChange 0 2 0 twoAgentState.pos twoAgentState.vel1 = ⟨-9/100, 0, 0⟩ := by
  simp only [computeVelocityChange, intRange_02, List.foldl_cons, List.foldl_nil]
  norm_num [twoAgentState, ruleStep, finishRules, rule1Distance, rule2Distance,
    rule3Distance, rule1Scale, rule2Scale, rule3Scale, normSq_mk]

lemma updv_fast (vel : ℤ → V3) (i : ℤ) (h : vel i = ⟨0, 0, 0⟩) :
    updateVelocities rsqrtTwoAgent vel ⟨-9/100, 0, 0⟩ i = ⟨-9/100, 0, 0⟩ := by
  simp only [updateVelocities, h]
  norm_num [rsqrtTwoAgent, normSq_mk, maxSpeed, min_def]

lemma updv_zero (vel : ℤ → V3) (i : ℤ) (h : vel i = ⟨0, 0, 0⟩) :
    updateVelocities rsqrtTwoAgent vel ⟨0, 0, 0⟩ i = ⟨0, 0, 0⟩ := by
  simp only [updateVelocities, h]
  norm_num [rsqrtTwoAgent, normSq_mk, maxSpeed, min_def]

/-- C1: the start/end derivation is wrong at the upper array end. On the
spec's authoritative scenario — the sorted cell-id array `[0,0,0,1,1,2]`
with `N = 6` and sentinel-filled tables — `kernIdentifyCellStartEnd`
produces `start = [0,3,5]` for cells 0,1,2 as claimed, but `end[0] = 3`,
`end[1] = -1` (the thread at the last index returns before closing the
preceding cell) and `end[2] = 5` (the last index itself, so the half-open
range `[5,5)` excludes the final agent), instead of the claimed tight
bounds `end = [3,5,6]`. -/
theorem identifyCellStartEnd_example_bug :
    (identifyCellStartEnd 6 (listToFun [0, 0, 0, 1, 1, 2]) negTable negTable).1 0 = 0 ∧
    (identifyCellStartEnd 6 (listToFun [0, 0, 0, 1, 1, 2]) negTable negTable).1 1 = 3 ∧
    (identifyCellStartEnd 6 (listToFun [0, 0, 0, 1, 1, 2]) negTable negTable).1 2 = 5 ∧
    (identifyCellStartEnd 6 (listToFun [0, 0, 0, 1, 1, 2]) negTable negTable).2 0 = 3 ∧
    (identifyCellStartEnd 6 (listToFun [0, 0, 0, 1, 1, 2]) negTable negTable).2 1 = -1 ∧
    (identifyCellStartEnd 6 (listToFun [0, 0, 0, 1, 1, 2]) negTable negTable).2 2 = 5 := by
  decide

/-- C2: the strategies disagree beyond any 1e-4 tolerance. From the same
two-agent state (agents at `(0,0,0)` and `(1,0,0)`, both within every
rule radius, zero velocities, sentinel tables, `dt = 0`, cell width 10 >
2·5), the brute-force step gives agent 0 the new velocity
`(-9/100, 0, 0)`, while the scattered-grid and coherent-grid steps give
it `(0,0,0)`: the cell end table holds `N-1` instead of `N` for the last
cell, so the last sorted agent is excluded from every neighbor range.
The velocity difference is `9/100 > 1/10000`. -/
theorem crossStrategy_counterexample :
    (stepSimulationNaive rsqrtTwoAgent 0 twoAgentState).vel1 0 = ⟨-9/100, 0, 0⟩ ∧
    (stepSimulationScatteredGrid rsqrtTwoAgent 0 twoAgentState).vel1 0 = ⟨0, 0, 0⟩ ∧
    (stepSimulationCoherentGrid rsqrtTwoAgent 0 twoAgentState).vel1 0 = ⟨0, 0, 0⟩ ∧
    |(-9/100 : ℚ) - 0| > 1/10000 := by
  have hN : ((twoAgentState.numObjects : ℕ) : ℤ) = 2 := by norm_num [twoAgentState]
  have hv0 : twoAgentState.vel1 0 = ⟨0, 0, 0⟩ := rfl
  have hp0 : twoAgentState.pos 0 = ⟨0, 0, 0⟩ := rfl
  have hcs : (gridPipeline twoAgentState).cellStart = updateFun negTable 5577 0 := by
    rw [two_pipeline]
  have hce : (gridPipeline twoAgentState).cellEnd = updateFun negTable 5577 1 := by
    rw [two_pipeline]
  have hai : (gridPipeline twoAgentState).arrIdx = fun i => if i = 1 then 1 else 0 := by
    rw [two_pipeline]
  refine ⟨?_, ?_, ?_, by rw [abs_of_nonpos (by norm_num)]; norm_num⟩
  · simp only [stepSimulationNaive, hN]
    rw [if_pos (by norm_num), cvc_naive_agent0]
    exact updv_fast _ _ hv0
  · simp only [stepSimulationScatteredGrid, hN, hcs, hce, hai]
    rw [if_pos (by norm_num)]
    simp only [updateVelNeighborSearch, hp0, gridSideCount_eq, grid_of_origin, gts_center]
    rw [cvcGrids_allSkip _ _ _ _ _ _ _ (by decide), hp0, finishRules_zeroAcc]
    exact updv_zero _ _ hv0
  · simp only [stepSimulationCoherentGrid, hN, hcs, hce, hai]
    rw [if_pos (by norm_num : (0:ℤ) ≤ 0 ∧ (0:ℤ) < 2)]
    have hsp : (if (0:ℤ) ≤ 0 ∧ (0:ℤ) < 2
        then twoAgentState.pos (if (0:ℤ) = 1 then 1 else 0)
        else twoAgentState.sortedPos 0) = ⟨0, 0, 0⟩ := by norm_num [twoAgentState]
    simp only [updateVelNeighborSearch, hsp, gridSideCount_eq, grid_of_origin, gts_center]
    rw [cvcGrids_allSkipNone _ _ _ _ _ _ (by decide), finishRules_zeroAcc]
    exact updv_zero _ _ (by norm_num [twoAgentState])

lemma stale_resetS :
    resetIntBuffer resetLaunchThreads (staleTableState.numObjects : ℤ)
      staleTableState.gridCellStartIndices (-1)
      = fun c => if 0 ≤ c ∧ c < 2 then -1 else 7 := by
  funext c
  have hmin : min ((staleTableState.numObjects : ℕ) : ℤ) resetLaunchThreads = 2 := by
    norm_num [staleTableState, twoAgentState, resetLaunchThreads_eq]
  simp [resetIntBuffer, hmin, staleTableState, twoAgentState, resetLaunchThreads_eq]

lemma stale_resetE :
    resetIntBuffer resetLaunchThreads (staleTableState.numObjects : ℤ)
      staleTableState.gridCellEndIndices (-1)
      = fun c => if 0 ≤ c ∧ c < 2 then -1 else 7 := by
  funext c
  have hmin : min ((staleTableState.numObjects : ℕ) : ℤ) resetLaunchThreads = 2 := by
    norm_num [staleTableState, twoAgentState, resetLaunchThreads_eq]
  simp [resetIntBuffer, hmin, staleTableState, twoAgentState, resetLaunchThreads_eq]

lemma stale_pipeline : gridPipeline staleTableState =
    ⟨(fun i => if i = 0 ∨ i = 1 then 5577 else 0),
     (fun i => if i = 1 then 1 else 0),
     updateFun (fun c => if 0 ≤ c ∧ c < 2 then -1 else 7) 5577 0,
     updateFun (fun c => if 0 ≤ c ∧ c < 2 then -1 else 7) 5577 1⟩ := by
  have hpairs : (List.range staleTableState.numObjects).map
      (fun i : ℕ => ((fun j : ℤ => if 0 ≤ j ∧ j < (staleTableState.numObjects : ℤ)
        then posToGridIndex (staleTableState.pos j) gridMinimum gridInverseCellWidth gridSideCount
        else staleTableState.particleGridIndices j) (i : ℤ), (i : ℤ)))
      = [(5577, 0), (5577, 1)] := by
    norm_num [staleTableState, twoAgentState, List.range_succ, cell_of_origin, cell_of_unitX]
  have hg : (overlay [(5577:ℤ), 5577] fun i : ℤ =>
      if 0 ≤ i ∧ i < (staleTableState.numObjects : ℤ)
      then posToGridIndex (staleTableState.pos i) gridMinimum gridInverseCellWidth gridSideCount
      else staleTableState.particleGridIndices i)
      = fun i => if i = 0 ∨ i = 1 then 5577 else 0 := by
    funext i
    rcases eq_or_ne i 0 with rfl | h0
    · norm_num [overlay]
    rcases eq_or_ne i 1 with rfl | h1
    · norm_num [overlay]
    have hc : ¬(0 ≤ i ∧ i.toNat < 2) := by omega
    have hc2 : ¬(0 ≤ i ∧ i < (2:ℤ)) := by omega
    simp [overlay, hc, hc2, staleTableState, twoAgentState, h0, h1]
  have ha : (overlay [(0:ℤ), 1] fun i : ℤ =>
      if 0 ≤ i ∧ i < (staleTableState.numObjects : ℤ)
      then i else staleTableState.particleArrayIndices i)
      = fun i => if i = 1 then 1 else 0 := by
    funext i
    rcases eq_or_ne i 0 with rfl | h0
    · norm_num [overlay]
    rcases eq_or_ne i 1 with rfl | h1
    · norm_num [overlay]
    have hc : ¬(0 ≤ i ∧ i.toNat < 2) := by omega
    have hc2 : ¬(0 ≤ i ∧ i < (2:ℤ)) := by omega
    simp [overlay, hc, hc2, staleTableState, twoAgentState, h0, h1]
  have hN : (staleTableState.numObjects : ℤ) = 2 := by
    norm_num [staleTableState, twoAgentState]
  have h02 : intRange 0 2 = [0, 1] := by decide
  simp only [gridPipeline, hpairs]
  norm_num [sortByKey, insertPair]
  rw [hg, ha, stale_resetS, stale_resetE, hN]
  refine ⟨rfl, rfl, ?_, ?_⟩ <;>
    norm_num [identifyCellStartEnd, h02, identifyBody, updateFun]

/-- C3: the reset kernels are launched with `numObjects` as the bound
instead of `gridCellCount`, so in a grid step with 2 agents only table
entries 0 and 1 are reset. Starting from stale tables holding 7, cell 2
(which contains no agent, and `2 < gridCellCount = 10648`) still holds 7
in both the start and end tables after the whole reset-and-derive phase,
not the sentinel `-1`. -/
theorem resetCellTables_incomplete :
    (gridPipeline staleTableState).cellStart 2 = 7 ∧
    (gridPipeline staleTableState).cellEnd 2 = 7 ∧
    (2 : ℤ) < gridCellCount ∧
    (staleTableState.numObjects : ℤ) = 2 ∧ (7 : ℤ) ≠ -1 := by
  rw [stale_pipeline]
  refine ⟨by norm_num [updateFun], by norm_num [updateFun],
    by rw [gridCellCount_eq]; norm_num,
    by norm_num [staleTableState, twoAgentState], by norm_num⟩

/-- C9: teardown does not release every allocated buffer.
`Boids::initSimulation` allocates nine buffers, but `Boids::endSimulation`
frees only `dev_vel1`, `dev_vel2`, `dev_pos` and `dev_sortedPos`; the
five buffers `dev_particleArrayIndices`, `dev_particleGridIndices`,
`dev_gridCellStartIndices`, `dev_gridCellEndIndices` and `dev_sortedVel`
are allocated but never freed, so the freed set is a strict subset of
the allocated set. -/
theorem endSimulation_leaks :
    Buffer.sortedVel ∈ allocatedBuffers ∧ Buffer.sortedVel ∉ freedBuffers ∧
    Buffer.particleArrayIndices ∈ allocatedBuffers ∧
      Buffer.particleArrayIndices ∉ freedBuffers ∧
    Buffer.particleGridIndices ∈ allocatedBuffers ∧
      Buffer.particleGridIndices ∉ freedBuffers ∧
    Buffer.gridCellStartIndices ∈ allocatedBuffers ∧
      Buffer.gridCellStartIndices ∉ freedBuffers ∧
    Buffer.gridCellEndIndices ∈ allocatedBuffers ∧
      Buffer.gridCellEndIndices ∉ freedBuffers ∧
    (∀ b ∈ freedBuffers, b ∈ allocatedBuffers) := by
  decide



lemma wrap_eq_spec (t : ℚ) : wrapHigh (wrapLow t) = wrapAxisSpec t := by
  unfold wrapHigh wrapLow wrapAxisSpec scene_scale
  split_ifs <;> first | rfl | linarith

/-- C7: the integrator advances `position += velocity * dt` and then wraps
each axis independently by the reset policy: a coordinate strictly above
`scene_scale` is reset to exactly `-scene_scale`, one strictly below
`-scene_scale` to exactly `scene_scale` (no overshoot offset) — so
`scene_scale + ε` comes out as `-scene_scale` for every `ε > 0` — and the
step integrates with the velocity produced this step (the post-step
current velocity buffer). -/
theorem kernUpdatePos_wraps :
    (∀ (dt : ℚ) (p v : V3), kernUpdatePosBody dt p v =
      ⟨wrapAxisSpec (p.x + dt * v.x), wrapAxisSpec (p.y + dt * v.y),
       wrapAxisSpec (p.z + dt * v.z)⟩) ∧
    (∀ eps : ℚ, 0 < eps → wrapAxisSpec (scene_scale + eps) = -scene_scale) ∧
    (∀ (rsqrt : ℚ → ℚ) (dt : ℚ) (s : SimState) (i : ℤ),
      0 ≤ i → i < (s.numObjects : ℤ) →
      (stepSimulationNaive rsqrt dt s).pos i =
        kernUpdatePosBody dt (s.pos i) ((stepSimulationNaive rsqrt dt s).vel1 i)) ∧
    (∀ (rsqrt : ℚ → ℚ) (dt : ℚ) (s : SimState) (i : ℤ),
      0 ≤ i → i < (s.numObjects : ℤ) →
      (stepSimulationScatteredGrid rsqrt dt s).pos i =
        kernUpdatePosBody dt (s.pos i) ((stepSimulationScatteredGrid rsqrt dt s).vel1 i)) ∧
    (∀ (rsqrt : ℚ → ℚ) (dt : ℚ) (s : SimState) (i : ℤ),
      0 ≤ i → i < (s.numObjects : ℤ) →
      (stepSimulationCoherentGrid rsqrt dt s).pos i =
        kernUpdatePosBody dt (s.pos ((gridPipeline s).arrIdx i))
          ((stepSimulationCoherentGrid rsqrt dt s).vel1 i)) := by
  refine ⟨?_, ?_, ?_, ?_, ?_⟩
  · intro dt p v
    obtain ⟨px, py, pz⟩ := p
    obtain ⟨vx, vy, vz⟩ := v
    simp [kernUpdatePosBody, wrap_eq_spec]
  · intro eps heps
    unfold wrapAxisSpec
    rw [if_pos (by unfold scene_scale; linarith)]
  · intro rsqrt dt s i h0 hN
    simp [stepSimulationNaive, h0, hN]
  · intro rsqrt dt s i h0 hN
    simp [stepSimulationScatteredGrid, h0, hN]
  · intro rsqrt dt s i h0 hN
    simp [stepSimulationCoherentGrid, h0, hN]

theorem kernUpdatePos_wraps_witness :
    wrapAxisSpec (scene_scale + 1/2) = -scene_scale :=
  kernUpdatePos_wraps.2.1 (1/2) (by norm_num)

lemma normSq_pos {vx vy vz : ℚ} (h : ¬(vx = 0 ∧ vy = 0 ∧ vz = 0)) :
    0 < normSq ⟨vx, vy, vz⟩ := by
  simp only [normSq_mk]
  have h3 : vx ≠ 0 ∨ vy ≠ 0 ∨ vz ≠ 0 := by tauto
  rcases h3 with h | h | h <;>
    nlinarith [mul_self_nonneg vx, mul_self_nonneg vy, mul_self_nonneg vz,
      mul_self_pos.mpr h]

/-- C4: the velocity update computes `new = vel1[i] + acceleration` and
clamps its magnitude to `maxSpeed` preserving direction. With the float
square root modelled by `rsqrt`, exact at the single point the code
evaluates it: when the squared magnitude is at most `maxSpeed²` the
result equals the unclamped sum; when above, the result has squared
magnitude exactly `maxSpeed²` and is a positive scalar multiple of the
unclamped sum (same direction); and the exact zero vector yields the zero
vector (the code's componentwise special case), not NaN. -/
theorem updateVelocities_clamp (rsqrt : ℚ → ℚ) (vel1 : ℤ → V3) (a : V3) (i : ℤ)
    (h1 : rsqrt (normSq (vel1 i + a)) * rsqrt (normSq (vel1 i + a)) = normSq (vel1 i + a))
    (h2 : 0 ≤ rsqrt (normSq (vel1 i + a))) :
    (normSq (vel1 i + a) ≤ maxSpeed * maxSpeed →
      updateVelocities rsqrt vel1 a i = vel1 i + a) ∧
    (maxSpeed * maxSpeed < normSq (vel1 i + a) →
      normSq (updateVelocities rsqrt vel1 a i) = maxSpeed * maxSpeed ∧
      updateVelocities rsqrt vel1 a i =
        (maxSpeed / rsqrt (normSq (vel1 i + a))) • (vel1 i + a) ∧
      0 < maxSpeed / rsqrt (normSq (vel1 i + a))) ∧
    ((vel1 i + a) = ⟨0, 0, 0⟩ → updateVelocities rsqrt vel1 a i = ⟨0, 0, 0⟩) := by
  simp only [updateVelocities]
  obtain ⟨v, hveq⟩ : ∃ v, vel1 i + a = v := ⟨_, rfl⟩
  rw [hveq] at h1 h2 ⊢
  obtain ⟨vx, vy, vz⟩ := v
  simp only [normSq_mk] at h1 h2 ⊢
  set r := rsqrt (vx * vx + vy * vy + vz * vz) with hrdef
  refine ⟨?_, ?_, ?_⟩
  · intro hle
    by_cases h0 : vx = 0 ∧ vy = 0 ∧ vz = 0
    · obtain ⟨e1, e2, e3⟩ := h0
      simp [e1, e2, e3]
    · have hpos : 0 < vx * vx + vy * vy + vz * vz := by
        simpa [normSq_mk] using normSq_pos h0
      have hrne : r ≠ 0 := by intro h; rw [h] at h1; nlinarith
      have hrpos : 0 < r := lt_of_le_of_ne h2 (Ne.symm hrne)
      have hle1 : vx * vx + vy * vy + vz * vz ≤ 1 := by
        unfold maxSpeed at hle; linarith
      have hrle : r ≤ maxSpeed := by unfold maxSpeed; nlinarith [h1, hle1, hrpos]
      rw [if_neg h0, min_eq_left hrle]
      simp only [V3.smul_mk, V3.mk.injEq]
      refine ⟨?_, ?_, ?_⟩ <;> field_simp
  · intro hgt
    have h0 : ¬(vx = 0 ∧ vy = 0 ∧ vz = 0) := by
      rintro ⟨e1, e2, e3⟩
      rw [e1, e2, e3] at hgt
      unfold maxSpeed at hgt
      linarith
    have hr1 : maxSpeed < r := by unfold maxSpeed at hgt ⊢; nlinarith [h1, h2, hgt]
    have hrne : r ≠ 0 := by unfold maxSpeed at hr1; intro h; rw [h] at hr1; linarith
    rw [if_neg h0, min_eq_right (le_of_lt hr1)]
    refine ⟨?_, ?_, ?_⟩
    · simp only [V3.smul_mk, normSq_mk]
      field_simp
      nlinarith [h1]
    · simp only [V3.smul_mk, V3.mk.injEq]
      unfold maxSpeed
      refine ⟨by ring, by ring, by ring⟩
    · have hrpos : 0 < r := by unfold maxSpeed at hr1; linarith
      unfold maxSpeed
      positivity
  · intro hz
    rw [V3.mk.injEq] at hz
    obtain ⟨e1, e2, e3⟩ := hz
    simp [e1, e2, e3]

theorem updateVelocities_clamp_witness :
    normSq (updateVelocities (fun q => if q = 25 then 5 else 0)
      (fun _ => ⟨3, 4, 0⟩) ⟨0, 0, 0⟩ 0) = maxSpeed * maxSpeed :=
  ((updateVelocities_clamp (fun q => if q = 25 then 5 else 0)
      (fun _ => ⟨3, 4, 0⟩) ⟨0, 0, 0⟩ 0
      (by norm_num) (by norm_num)).2.1
    (by norm_num [maxSpeed])).1



lemma gridIndex3Dto1D_oob_iff (x y z res : ℤ) :
    gridIndex3Dto1D x y z res = gridOOB ↔
      ¬(0 ≤ x ∧ x < res ∧ 0 ≤ y ∧ y < res ∧ 0 ≤ z ∧ z < res) := by
  unfold gridIndex3Dto1D gridOOB
  by_cases hc : x < 0 ∨ x ≥ res ∨ y < 0 ∨ y ≥ res ∨ z < 0 ∨ z ≥ res
  · rw [if_pos hc]
    constructor
    · intro _ hb; omega
    · intro _; rfl
  · rw [if_neg hc]
    push_neg at hc
    obtain ⟨b1, b2, b3, b4, b5, b6⟩ := hc
    constructor
    · intro hv
      exfalso
      have hy : 0 ≤ y * res := mul_nonneg b3 (by omega)
      have hz : 0 ≤ z * res * res := mul_nonneg (mul_nonneg b5 (by omega)) (by omega)
      omega
    · intro hb
      exact absurd ⟨b1, b2, b3, b4, b5, b6⟩ hb

lemma gridIndex3Dto1D_val (x y z res : ℤ)
    (h : 0 ≤ x ∧ x < res ∧ 0 ≤ y ∧ y < res ∧ 0 ≤ z ∧ z < res) :
    gridIndex3Dto1D x y z res = x + y * res + z * res * res := by
  unfold gridIndex3Dto1D
  rw [if_neg (by omega)]

/-- C6: the grid indexer computes `floor((position - gridOrigin) *
inverseCellWidth)` per axis, pulls a coordinate equal to the side count
back to the last valid index (so a position exactly at
`gridOrigin + sideCount * cellWidth` on an axis maps to `sideCount - 1`),
maps in-range coordinates to `x + y*side + z*side²`, and returns the
out-of-bounds sentinel exactly when some resulting coordinate is negative
or at least the side count. -/
theorem grid_indexer_spec :
    (∀ (p gm : V3) (invW : ℚ) (res : ℤ),
      posToGrid p gm invW res =
        ⟨(if ⌊(p.x - gm.x) * invW⌋ = res then res - 1 else ⌊(p.x - gm.x) * invW⌋),
         (if ⌊(p.y - gm.y) * invW⌋ = res then res - 1 else ⌊(p.y - gm.y) * invW⌋),
         (if ⌊(p.z - gm.z) * invW⌋ = res then res - 1 else ⌊(p.z - gm.z) * invW⌋)⟩) ∧
    (∀ (p gm : V3) (invW : ℚ) (res : ℤ),
      (posToGridIndex p gm invW res = gridOOB ↔
        ¬(0 ≤ (posToGrid p gm invW res).x ∧ (posToGrid p gm invW res).x < res ∧
          0 ≤ (posToGrid p gm invW res).y ∧ (posToGrid p gm invW res).y < res ∧
          0 ≤ (posToGrid p gm invW res).z ∧ (posToGrid p gm invW res).z < res))) ∧
    (∀ (p gm : V3) (invW : ℚ) (res : ℤ),
      (0 ≤ (posToGrid p gm invW res).x ∧ (posToGrid p gm invW res).x < res ∧
       0 ≤ (posToGrid p gm invW res).y ∧ (posToGrid p gm invW res).y < res ∧
       0 ≤ (posToGrid p gm invW res).z ∧ (posToGrid p gm invW res).z < res) →
      posToGridIndex p gm invW res =
        (posToGrid p gm invW res).x + (posToGrid p gm invW res).y * res +
          (posToGrid p gm invW res).z * res * res) ∧
    (∀ (gm : V3) (cw : ℚ) (res : ℤ) (p : V3), 0 < cw →
      p.x = gm.x + (res : ℚ) * cw →
      (posToGrid p gm (1 / cw) res).x = res - 1) := by
  refine ⟨?_, ?_, ?_, ?_⟩
  · intro p gm invW res
    rfl
  · intro p gm invW res
    exact gridIndex3Dto1D_oob_iff (posToGrid p gm invW res).x
      (posToGrid p gm invW res).y (posToGrid p gm invW res).z res
  · intro p gm invW res h
    exact gridIndex3Dto1D_val (posToGrid p gm invW res).x
      (posToGrid p gm invW res).y (posToGrid p gm invW res).z res h
  · intro gm cw res p hcw hpx
    have : (p.x - gm.x) * (1 / cw) = (res : ℚ) := by
      rw [hpx]; field_simp
    simp only [posToGrid, this, Int.floor_intCast]
    simp


theorem grid_indexer_witness :
    (posToGrid ⟨220, 0, 0⟩ ⟨0, 0, 0⟩ (1/10) 22).x = 22 - 1 :=
  grid_indexer_spec.2.2.2 ⟨0, 0, 0⟩ 10 22 ⟨220, 0, 0⟩ (by norm_num) (by norm_num)



@[simp] lemma V3.smul_x (c : ℚ) (v : V3) : (c • v).x = c * v.x := rfl

@[simp] lemma V3.smul_y (c : ℚ) (v : V3) : (c • v).y = c * v.y := rfl

@[simp] lemma V3.smul_z (c : ℚ) (v : V3) : (c • v).z = c * v.z := rfl

lemma wrap_bounds (t : ℚ) :
    -scene_scale ≤ wrapHigh (wrapLow t) ∧ wrapHigh (wrapLow t) ≤ scene_scale := by
  unfold wrapHigh wrapLow scene_scale
  split_ifs <;> constructor <;> linarith

lemma inBounds_body (dt : ℚ) (p v : V3) : inBoundsV (kernUpdatePosBody dt p v) := by
  simp only [kernUpdatePosBody, inBoundsV]
  exact ⟨(wrap_bounds _).1, (wrap_bounds _).2, (wrap_bounds _).1, (wrap_bounds _).2,
    (wrap_bounds _).1, (wrap_bounds _).2⟩

lemma step_numObjects (rsqrt : ℚ → ℚ) (strat : Strategy) (dt : ℚ) (s : SimState) :
    (stepSimulation rsqrt strat dt s).numObjects = s.numObjects := by
  cases strat <;> rfl

lemma step_pos_inBounds (rsqrt : ℚ → ℚ) (strat : Strategy) (dt : ℚ) (s : SimState)
    (i : ℤ) (h0 : 0 ≤ i) (hN : i < (s.numObjects : ℤ)) :
    inBoundsV ((stepSimulation rsqrt strat dt s).pos i) := by
  cases strat <;>
    simp only [stepSimulation, stepSimulationNaive, stepSimulationScatteredGrid,
      stepSimulationCoherentGrid, if_pos (And.intro h0 hN)] <;>
    exact inBounds_body _ _ _

/-- C8: for every N ≥ 0, after `initSimulation` (initial positions are
`scene_scale` times random vectors with components in `[-1, 1]`; the
thrust RNG itself is external) followed by any finite sequence of steps
of any strategy with any `dt`, every coordinate of every agent's position
lies within `[-scene_scale, scene_scale]`. -/
theorem positions_in_bounds (N : ℕ) (rand : ℤ → V3) (m : MemInit) (rsqrt : ℚ → ℚ)
    (steps : List (Strategy × ℚ))
    (hr : ∀ i : ℤ, -1 ≤ (rand i).x ∧ (rand i).x ≤ 1 ∧ -1 ≤ (rand i).y ∧
      (rand i).y ≤ 1 ∧ -1 ≤ (rand i).z ∧ (rand i).z ≤ 1) :
    ∀ i : ℤ, 0 ≤ i → i < (N : ℤ) →
      inBoundsV ((runSteps rsqrt steps (initSimulation N rand m)).pos i) := by
  have hnum : ∀ (steps : List (Strategy × ℚ)) (s : SimState),
      (runSteps rsqrt steps s).numObjects = s.numObjects := by
    intro steps
    induction steps with
    | nil => intro s; rfl
    | cons hd tl ih =>
      intro s
      show (runSteps rsqrt tl (stepSimulation rsqrt hd.1 hd.2 s)).numObjects = _
      rw [ih, step_numObjects]
  have key : ∀ (steps : List (Strategy × ℚ)) (s : SimState),
      (∀ i : ℤ, 0 ≤ i → i < (s.numObjects : ℤ) → inBoundsV (s.pos i)) →
      ∀ i : ℤ, 0 ≤ i → i < (s.numObjects : ℤ) →
        inBoundsV ((runSteps rsqrt steps s).pos i) := by
    intro steps
    induction steps with
    | nil => intro s hs i h0 hN; exact hs i h0 hN
    | cons hd tl ih =>
      intro s hs i h0 hN
      show inBoundsV ((runSteps rsqrt tl (stepSimulation rsqrt hd.1 hd.2 s)).pos i)
      refine ih _ (fun j hj0 hjN => ?_) i h0 ?_
      · exact step_pos_inBounds rsqrt hd.1 hd.2 s j hj0
          (by rwa [step_numObjects] at hjN)
      · rw [step_numObjects]; exact hN
  intro i h0 hN
  refine key steps _ (fun j hj0 hjN => ?_) i h0 hN
  have hjN2 : j < (N : ℤ) := hjN
  simp only [initSimulation, if_pos (And.intro hj0 hjN2), inBoundsV]
  obtain ⟨b1, b2, b3, b4, b5, b6⟩ := hr j
  simp only [V3.smul_x, V3.smul_y, V3.smul_z]
  unfold scene_scale
  refine ⟨by linarith, by linarith, by linarith, by linarith, by linarith, by linarith⟩

theorem positions_in_bounds_witness :
    inBoundsV ((runSteps (fun _ => 0) [(Strategy.naive, 1)]
      (initSimulation 1 (fun _ => ⟨1, 0, 0⟩) zeroMem)).pos 0) :=
  positions_in_bounds 1 (fun _ => ⟨1, 0, 0⟩) zeroMem (fun _ => 0)
    [(Strategy.naive, 1)] (fun i => by norm_num) 0 (by norm_num) (by norm_num)



lemma V3.addAssoc (u v w : V3) : u + v + w = u + (v + w) := by
  obtain ⟨a, b, c⟩ := u; obtain ⟨d, e, f⟩ := v; obtain ⟨g, h, i⟩ := w
  simp [V3.add_mk]; refine ⟨by ring, by ring, by ring⟩

lemma V3.subSub (u v w : V3) : u - v - w = u - (v + w) := by
  obtain ⟨a, b, c⟩ := u; obtain ⟨d, e, f⟩ := v; obtain ⟨g, h, i⟩ := w
  simp [V3.add_mk, V3.sub_mk]; refine ⟨by ring, by ring, by ring⟩

lemma V3.addZero (u : V3) : u + ⟨0, 0, 0⟩ = u := by
  obtain ⟨a, b, c⟩ := u; simp [V3.add_mk]

lemma V3.zeroAdd (u : V3) : (⟨0, 0, 0⟩ : V3) + u = u := by
  obtain ⟨a, b, c⟩ := u; simp [V3.add_mk]

lemma V3.zeroSub (u : V3) : (⟨0, 0, 0⟩ : V3) - u = -u := by
  obtain ⟨a, b, c⟩ := u; simp [V3.sub_mk]; rfl

@[simp] lemma sumV3_nil : sumV3 [] = ⟨0, 0, 0⟩ := rfl

@[simp] lemma sumV3_cons (v : V3) (l : List V3) : sumV3 (v :: l) = v + sumV3 l := rfl

lemma ruleFold_char (pos vel : ℤ → V3) (self : ℤ) (cs : List ℤ) (a : RuleAcc) :
    cs.foldl (fun acc b => ruleStep (pos self) acc (pos b) (vel b)) a =
      ⟨a.neighborCount + ((closeFilter rule1Distance self pos cs).length : ℤ),
       a.center + sumV3 ((closeFilter rule1Distance self pos cs).map pos),
       a.separate - sumV3 ((closeFilter rule2Distance self pos cs).map
         (fun i => pos i - pos self)),
       a.cohesion + sumV3 ((closeFilter rule3Distance self pos cs).map vel)⟩ := by
  induction cs generalizing a with
  | nil =>
    simp [closeFilter, V3.addZero]
    obtain ⟨n, c, s, h⟩ := a
    simp [V3.addZero]
    obtain ⟨sa, sb, sc⟩ := s
    simp [V3.sub_mk]
  | cons c t ih =>
    simp only [List.foldl_cons]
    rw [ih]
    unfold ruleStep
    by_cases h1 : normSq (pos c - pos self) < rule1Distance * rule1Distance <;>
      by_cases h2 : normSq (pos c - pos self) < rule2Distance * rule2Distance <;>
        by_cases h3 : normSq (pos c - pos self) < rule3Distance * rule3Distance <;>
          simp [closeFilter, List.filter_cons, h1, h2, h3, V3.addAssoc, V3.subSub] <;>
            omega



lemma foldl_skip {β : Type} (cs : List ℤ) (f : β → ℤ → β) (self : ℤ) (a : β) :
    cs.foldl (fun acc i => if i = self then acc else f acc i) a =
      (cs.filter (fun i => i ≠ self)).foldl f a := by
  induction cs generalizing a with
  | nil => rfl
  | cons c t ih =>
    by_cases h : c = self
    · simp [List.filter_cons, h, ih]
    · simp [List.filter_cons, h, ih]

lemma foldl_grid_flatten {β : Type} (gs : List ℤ) (inner : ℤ → List ℤ)
    (f : β → ℤ → β) (a : β) :
    gs.foldl (fun acc g => if g = gridOOB then acc else (inner g).foldl f acc) a =
      ((gs.filter (fun g => g ≠ gridOOB)).flatMap inner).foldl f a := by
  induction gs generalizing a with
  | nil => rfl
  | cons g t ih =>
    by_cases h : g = gridOOB
    · simp [List.filter_cons, h, ih]
    · simp [List.filter_cons, h, ih, List.foldl_append]

lemma finish_spec (pos vel : ℤ → V3) (self : ℤ) (cs : List ℤ) :
    finishRules (pos self)
      ⟨0 + ((closeFilter rule1Distance self pos cs).length : ℤ),
       (⟨0, 0, 0⟩ : V3) + sumV3 ((closeFilter rule1Distance self pos cs).map pos),
       (⟨0, 0, 0⟩ : V3) - sumV3 ((closeFilter rule2Distance self pos cs).map
         (fun i => pos i - pos self)),
       (⟨0, 0, 0⟩ : V3) + sumV3 ((closeFilter rule3Distance self pos cs).map vel)⟩ =
      specCohesion cs self pos + specSeparation cs self pos +
        specAlignment cs self pos vel := by
  simp only [finishRules, specCohesion, specSeparation, specAlignment,
    V3.zeroAdd, V3.zeroSub, zero_add]
  by_cases hlen : (closeFilter rule1Distance self pos cs).length = 0
  · simp [hlen]
  · rw [if_pos (Int.natCast_pos.mpr (Nat.pos_of_ne_zero hlen)), if_neg hlen]



/-- C5: both rule evaluators return the sum of the three independently
weighted terms over their candidate set — cohesion: (average position of
candidates strictly within R1 minus own position) times W1, zero when no
candidate is within R1; separation: the negative sum of (candidate −
self) over candidates strictly within R2, times W2; alignment: the sum of
candidate velocities over candidates strictly within R3, times W3 —
with Euclidean distances (compared via squares) and the agent itself
never counted as a candidate. -/
theorem ruleEvaluator_spec :
    (∀ (start stop iSelf : ℤ) (pos vel : ℤ → V3),
      computeVelocityChange start stop iSelf pos vel =
        specCohesion ((intRange start stop).filter (fun i => i ≠ iSelf)) iSelf pos +
        specSeparation ((intRange start stop).filter (fun i => i ≠ iSelf)) iSelf pos +
        specAlignment ((intRange start stop).filter (fun i => i ≠ iSelf)) iSelf pos vel) ∧
    (∀ (gs : List ℤ) (S E : ℤ → ℤ) (index : ℤ) (indexToBoid : Option (ℤ → ℤ))
      (pos vel : ℤ → V3),
      computeVelocityChangeInGrids gs S E index indexToBoid pos vel =
        specCohesion (gridCandidates gs S E indexToBoid index) index pos +
        specSeparation (gridCandidates gs S E indexToBoid index) index pos +
        specAlignment (gridCandidates gs S E indexToBoid index) index pos vel) := by
  constructor
  · intro start stop iSelf pos vel
    simp only [computeVelocityChange]
    rw [foldl_skip (intRange start stop)
      (fun acc i => ruleStep (pos iSelf) acc (pos i) (vel i)) iSelf]
    rw [ruleFold_char pos vel iSelf]
    exact finish_spec pos vel iSelf _
  · intro gs S E index indexToBoid pos vel
    simp only [computeVelocityChangeInGrids, gridCandidates]
    cases indexToBoid with
    | none =>
      have hinner : (fun (acc : RuleAcc) (g : ℤ) =>
          if g = gridOOB then acc
          else (intRange (S g) (E g)).foldl (fun acc2 i => if i = index then acc2
            else ruleStep (pos index) acc2 (pos i) (vel i)) acc) =
          fun acc g => if g = gridOOB then acc
            else ((intRange (S g) (E g)).map (fun i : ℤ => i)).foldl
              (fun acc2 b => if b = index then acc2
                else ruleStep (pos index) acc2 (pos b) (vel b)) acc := by
        funext acc g
        by_cases h : g = gridOOB
        · simp [h]
        · simp only [h, if_false, List.foldl_map]
      rw [hinner,
        foldl_grid_flatten gs (fun g => (intRange (S g) (E g)).map (fun i : ℤ => i)),
        foldl_skip _ (fun acc b => ruleStep (pos index) acc (pos b) (vel b)) index,
        ruleFold_char pos vel index]
      exact finish_spec pos vel index _
    | some f =>
      have hinner : (fun (acc : RuleAcc) (g : ℤ) =>
          if g = gridOOB then acc
          else (intRange (S g) (E g)).foldl (fun acc2 i => if f i = index then acc2
            else ruleStep (pos index) acc2 (pos (f i)) (vel (f i))) acc) =
          fun acc g => if g = gridOOB then acc
            else ((intRange (S g) (E g)).map f).foldl
              (fun acc2 b => if b = index then acc2
                else ruleStep (pos index) acc2 (pos b) (vel b)) acc := by
        funext acc g
        by_cases h : g = gridOOB
        · simp [h]
        · simp only [h, if_false, List.foldl_map]
      rw [hinner,
        foldl_grid_flatten gs (fun g => (intRange (S g) (E g)).map f),
        foldl_skip _ (fun acc b => ruleStep (pos index) acc (pos b) (vel b)) index,
        ruleFold_char pos vel index]
      exact finish_spec pos vel index _



lemma mem_intRange {s e x : ℤ} : x ∈ intRange s e ↔ s ≤ x ∧ x < e := by
  simp only [intRange, List.mem_map, List.mem_range]
  constructor
  · rintro ⟨k, hk, rfl⟩; omega
  · intro ⟨h1, h2⟩
    refine ⟨(x - s).toNat, by omega, by omega⟩

lemma insertPair_perm (p : ℤ × ℤ) (l : List (ℤ × ℤ)) :
    List.Perm (insertPair p l) (p :: l) := by
  induction l with
  | nil => exact List.Perm.refl _
  | cons q t ih =>
    unfold insertPair
    by_cases h : p.1 ≤ q.1
    · simp only [h, if_true]
      exact List.Perm.refl _
    · simp only [h, if_false]
      exact (ih.cons q).trans (List.Perm.swap p q t)

lemma sortByKey_perm (l : List (ℤ × ℤ)) : List.Perm (sortByKey l) l := by
  induction l with
  | nil => exact List.Perm.refl _
  | cons p t ih => exact (insertPair_perm p (sortByKey t)).trans (ih.cons p)

lemma overlay_apply {α : Type} (l : List α) (base : ℤ → α) (i : ℤ)
    (h0 : 0 ≤ i) (hl : i.toNat < l.length) :
    overlay l base i = l.get ⟨i.toNat, hl⟩ := by
  simp [overlay, h0, hl]



lemma identifyBody_inv {N : ℤ} {g : ℤ → ℤ} {t : ℤ} {SE : (ℤ → ℤ) × (ℤ → ℤ)}
    (h : IdentifyInv N g t SE) (h0 : 0 ≤ t) (hN : t < N) :
    IdentifyInv N g (t + 1) (identifyBody N g SE t) := by
  obtain ⟨ha, hb, hc, hd⟩ := h
  unfold identifyBody
  by_cases ht0 : t = 0
  · subst ht0
    simp only [if_pos rfl]
    refine ⟨?_, hb, ?_, ?_⟩
    · intro c
      by_cases hcg : c = g 0
      · right; simp [updateFun, hcg]; omega
      · simpa [updateFun, hcg] using ha c
    · rintro c ⟨p, hp0, hpt, hpg⟩
      have hp : p = 0 := by omega
      subst hp
      subst hpg
      simp [updateFun]; omega
    · intro c hcne
      obtain ⟨p, hp⟩ := hd c hcne
      exact ⟨p, hp.1, by omega, hp.2.2⟩
  · simp only [if_neg ht0]
    by_cases htN : t = N - 1
    · simp only [if_pos htN]
      by_cases hdiff : g t ≠ g (t - 1)
      · simp only [if_pos hdiff]
        refine ⟨?_, ?_, ?_, ?_⟩
        · intro c
          by_cases hcg : c = g t
          · right; simp [updateFun, hcg]; omega
          · simpa [updateFun, hcg] using ha c
        · intro c
          by_cases hcg : c = g t
          · right; simp [updateFun, hcg]; omega
          · simpa [updateFun, hcg] using hb c
        · rintro c ⟨p, hp0, hpt, hpg⟩
          by_cases hcg : c = g t
          · simp [updateFun, hcg]; omega
          · simp only [updateFun]
            rw [if_neg hcg]
            refine hc c ⟨p, hp0, ?_, hpg⟩
            rcases (by omega : p < t ∨ p = t) with h | h
            · exact h
            · exact absurd (h ▸ hpg).symm hcg
        · intro c hcne
          by_cases hcg : c = g t
          · exact ⟨t, h0, by omega, hcg.symm⟩
          · simp only [updateFun] at hcne
            rw [if_neg hcg] at hcne
            obtain ⟨p, hp⟩ := hd c hcne
            exact ⟨p, hp.1, by omega, hp.2.2⟩
      · simp only [if_neg hdiff]
        push_neg at hdiff
        refine ⟨ha, ?_, ?_, ?_⟩
        · intro c
          by_cases hcg : c = g t
          · right; simp [updateFun, hcg]; omega
          · simpa [updateFun, hcg] using hb c
        · rintro c ⟨p, hp0, hpt, hpg⟩
          rcases (by omega : p < t ∨ p = t) with h | h
          · exact hc c ⟨p, hp0, h, hpg⟩
          · subst h
            exact hc c ⟨p - 1, by omega, by omega, by rw [← hdiff]; exact hpg⟩
        · intro c hcne
          by_cases hcg : c = g t
          · exact ⟨t, h0, by omega, hcg.symm⟩
          · simp only [updateFun] at hcne
            rw [if_neg hcg] at hcne
            obtain ⟨p, hp⟩ := hd c hcne
            exact ⟨p, hp.1, by omega, hp.2.2⟩
    · simp only [if_neg htN]
      by_cases hdiff : g t ≠ g (t - 1)
      · simp only [if_pos hdiff]
        refine ⟨?_, ?_, ?_, ?_⟩
        · intro c
          by_cases hcg : c = g t
          · right; simp [updateFun, hcg]; omega
          · simpa [updateFun, hcg] using ha c
        · intro c
          by_cases hcg : c = g (t - 1)
          · right; simp [updateFun, hcg]; omega
          · simpa [updateFun, hcg] using hb c
        · rintro c ⟨p, hp0, hpt, hpg⟩
          by_cases hcg : c = g t
          · simp [updateFun, hcg]; omega
          · simp only [updateFun]
            rw [if_neg hcg]
            refine hc c ⟨p, hp0, ?_, hpg⟩
            rcases (by omega : p < t ∨ p = t) with h | h
            · exact h
            · exact absurd (h ▸ hpg).symm hcg
        · intro c hcne
          by_cases hcg : c = g (t - 1)
          · exact ⟨t - 1, by omega, by omega, hcg.symm⟩
          · simp only [updateFun] at hcne
            rw [if_neg hcg] at hcne
            obtain ⟨p, hp⟩ := hd c hcne
            exact ⟨p, hp.1, by omega, hp.2.2⟩
      · simp only [if_neg hdiff]
        push_neg at hdiff
        refine ⟨ha, hb, ?_, ?_⟩
        · rintro c ⟨p, hp0, hpt, hpg⟩
          rcases (by omega : p < t ∨ p = t) with h | h
          · exact hc c ⟨p, hp0, h, hpg⟩
          · subst h
            exact hc c ⟨p - 1, by omega, by omega, by rw [← hdiff]; exact hpg⟩
        · intro c hcne
          obtain ⟨p, hp⟩ := hd c hcne
          exact ⟨p, hp.1, by omega, hp.2.2⟩



lemma intRange_zero_succ (n : ℕ) :
    intRange 0 ((n : ℤ) + 1) = intRange 0 (n : ℤ) ++ [(n : ℤ)] := by
  have h1 : ((n : ℤ) + 1 - 0).toNat = n + 1 := by omega
  have h2 : ((n : ℤ) - 0).toNat = n := by omega
  simp only [intRange, h1, h2, List.range_succ, List.map_append, List.map_cons,
    List.map_nil]
  simp

lemma identify_subset (N : ℤ) (g : ℤ → ℤ) (S0 E0 : ℤ → ℤ)
    (hS0 : ∀ c, S0 c = -1) (hE0 : ∀ c, E0 c = -1) :
    ∀ c x, x ∈ intRange ((identifyCellStartEnd N g S0 E0).1 c)
      ((identifyCellStartEnd N g S0 E0).2 c) → 0 ≤ x ∧ x < N := by
  have hinv : ∀ n : ℕ, (n : ℤ) ≤ N →
      IdentifyInv N g (n : ℤ) ((intRange 0 (n : ℤ)).foldl (identifyBody N g) (S0, E0)) := by
    intro n
    induction n with
    | zero =>
      intro _
      have : intRange 0 ((0:ℕ) : ℤ) = [] := by decide
      rw [this]
      refine ⟨fun c => Or.inl (hS0 c), fun c => Or.inl (hE0 c),
        fun c h => absurd h ?_, fun c h => absurd (hE0 c) h⟩
      rintro ⟨p, hp0, hpt, _⟩
      simp at hpt
      omega
    | succ n ih =>
      intro hle
      have hn : (n : ℤ) < N := by push_cast at hle ⊢; omega
      have hcast : ((n + 1 : ℕ) : ℤ) = (n : ℤ) + 1 := by push_cast; ring
      rw [hcast, intRange_zero_succ n, List.foldl_append, List.foldl_cons, List.foldl_nil]
      exact identifyBody_inv (ih (by omega)) (by omega) hn
  intro c x hx
  by_cases hN0 : 0 ≤ N
  · have hNeq : ((N.toNat : ℕ) : ℤ) = N := by omega
    have := hinv N.toNat (by omega)
    rw [hNeq] at this
    obtain ⟨ha, hb, hc, hd⟩ := this
    unfold identifyCellStartEnd at hx
    rw [mem_intRange] at hx
    rcases hb c with hbc | hbc
    · rcases ha c with hac | hac <;> omega
    · have hcne : ((intRange 0 N).foldl (identifyBody N g) (S0, E0)).2 c ≠ -1 := by omega
      have hocc := hd c hcne
      have hscb := hc c hocc
      omega
  · unfold identifyCellStartEnd at hx
    have : intRange 0 N = [] := intRange_eq_nil (by omega)
    rw [this] at hx
    simp only [List.foldl_nil] at hx
    rw [mem_intRange, hS0, hE0] at hx
    omega



lemma gridPipeline_tables (s : SimState) :
    (gridPipeline s).cellStart = (identifyCellStartEnd (s.numObjects : ℤ)
      (gridPipeline s).gridIdx
      (resetIntBuffer resetLaunchThreads (s.numObjects : ℤ) s.gridCellStartIndices (-1))
      (resetIntBuffer resetLaunchThreads (s.numObjects : ℤ) s.gridCellEndIndices (-1))).1 ∧
    (gridPipeline s).cellEnd = (identifyCellStartEnd (s.numObjects : ℤ)
      (gridPipeline s).gridIdx
      (resetIntBuffer resetLaunchThreads (s.numObjects : ℤ) s.gridCellStartIndices (-1))
      (resetIntBuffer resetLaunchThreads (s.numObjects : ℤ) s.gridCellEndIndices (-1))).2 :=
  ⟨rfl, rfl⟩

lemma gridPipeline_subset (s : SimState)
    (hS : ∀ c, s.gridCellStartIndices c = -1)
    (hE : ∀ c, s.gridCellEndIndices c = -1) :
    ∀ c x, x ∈ intRange ((gridPipeline s).cellStart c) ((gridPipeline s).cellEnd c) →
      0 ≤ x ∧ x < (s.numObjects : ℤ) := by
  intro c x hx
  rw [(gridPipeline_tables s).1, (gridPipeline_tables s).2] at hx
  refine identify_subset (s.numObjects : ℤ) (gridPipeline s).gridIdx _ _
    (fun c => ?_) (fun c => ?_) c x hx
  · simp [resetIntBuffer, hS]
  · simp [resetIntBuffer, hE]

lemma gridPipeline_arrIdx_eq (s : SimState) :
    (gridPipeline s).arrIdx =
      overlay ((sortByKey ((List.range s.numObjects).map
        (fun i : ℕ => ((fun j : ℤ => if 0 ≤ j ∧ j < (s.numObjects : ℤ)
          then posToGridIndex (s.pos j) gridMinimum gridInverseCellWidth gridSideCount
          else s.particleGridIndices j) (i : ℤ), (i : ℤ))))).map Prod.snd)
        (fun i => if 0 ≤ i ∧ i < (s.numObjects : ℤ) then i else s.particleArrayIndices i) :=
  rfl

lemma overlay_range_facts (n : ℕ) (al : List ℤ) (base : ℤ → ℤ)
    (hperm : List.Perm al ((List.range n).map (fun i : ℕ => (i : ℤ)))) :
    (∀ j : ℤ, 0 ≤ j → j < (n : ℤ) →
      0 ≤ overlay al base j ∧ overlay al base j < (n : ℤ)) ∧
    (∀ j k : ℤ, 0 ≤ j → j < (n : ℤ) → 0 ≤ k → k < (n : ℤ) →
      overlay al base j = overlay al base k → j = k) := by
  have hlen : al.length = n := by simpa using hperm.length_eq
  have hnodup : al.Nodup := by
    rw [hperm.nodup_iff]
    exact (List.nodup_range n).map Nat.cast_injective
  constructor
  · intro j h0 hN
    have hj : j.toNat < al.length := by omega
    rw [overlay_apply al base j h0 hj]
    have hmem : al.get ⟨j.toNat, hj⟩ ∈ al := List.get_mem al _ _
    rw [hperm.mem_iff] at hmem
    simp only [List.mem_map, List.mem_range] at hmem
    obtain ⟨i, hi, hie⟩ := hmem
    omega
  · intro j k hj0 hjN hk0 hkN heq
    have hj : j.toNat < al.length := by omega
    have hk : k.toNat < al.length := by omega
    rw [overlay_apply al base j hj0 hj, overlay_apply al base k hk0 hk] at heq
    have := (List.Nodup.get_inj_iff hnodup).mp heq
    have : j.toNat = k.toNat := congrArg Fin.val this
    omega

lemma gridPipeline_arrIdx_facts (s : SimState) :
    (∀ j : ℤ, 0 ≤ j → j < (s.numObjects : ℤ) →
      0 ≤ (gridPipeline s).arrIdx j ∧ (gridPipeline s).arrIdx j < (s.numObjects : ℤ)) ∧
    (∀ j k : ℤ, 0 ≤ j → j < (s.numObjects : ℤ) → 0 ≤ k → k < (s.numObjects : ℤ) →
      (gridPipeline s).arrIdx j = (gridPipeline s).arrIdx k → j = k) := by
  rw [gridPipeline_arrIdx_eq]
  refine overlay_range_facts s.numObjects _ _ ?_
  have h1 := (sortByKey_perm ((List.range s.numObjects).map
    (fun i : ℕ => ((fun j : ℤ => if 0 ≤ j ∧ j < (s.numObjects : ℤ)
      then posToGridIndex (s.pos j) gridMinimum gridInverseCellWidth gridSideCount
      else s.particleGridIndices j) (i : ℤ), (i : ℤ))))).map Prod.snd
  refine h1.trans ?_
  rw [List.map_map]
  exact List.Perm.refl _



lemma foldl_congr_mem {α β : Type} {l : List α} {f g : β → α → β} {a : β}
    (h : ∀ b x, x ∈ l → f b x = g b x) : l.foldl f a = l.foldl g a := by
  induction l generalizing a with
  | nil => rfl
  | cons x t ih =>
    rw [List.foldl_cons, List.foldl_cons, h a x (by simp)]
    exact ih (fun b y hy => h b y (by simp [hy]))

lemma updateVelNS_coherent_eq (rsqrt : ℚ → ℚ) (res : ℤ) (gm : V3) (invW : ℚ)
    (S E : ℤ → ℤ) (N : ℤ) (perm : ℤ → ℤ) (pos vel : ℤ → V3)
    (spFun svFun : ℤ → V3) (k : ℤ) (hk0 : 0 ≤ k) (hkN : k < N)
    (hsub : ∀ c x, x ∈ intRange (S c) (E c) → 0 ≤ x ∧ x < N)
    (hsp : ∀ i : ℤ, 0 ≤ i → i < N → spFun i = pos (perm i))
    (hsv : ∀ i : ℤ, 0 ≤ i → i < N → svFun i = vel (perm i))
    (hinj : ∀ i : ℤ, 0 ≤ i → i < N → (perm i = perm k ↔ i = k)) :
    updateVelNeighborSearch rsqrt res gm invW S E none spFun svFun k =
      updateVelNeighborSearch rsqrt res gm invW S E (some perm) pos vel (perm k) := by
  have hspk : spFun k = pos (perm k) := hsp k hk0 hkN
  have hacc : ∀ gs : List ℤ,
      computeVelocityChangeInGrids gs S E k none spFun svFun =
        computeVelocityChangeInGrids gs S E (perm k) (some perm) pos vel := by
    intro gs
    simp only [computeVelocityChangeInGrids]
    rw [hspk]
    refine congrArg _ (foldl_congr_mem ?_)
    intro b g _
    by_cases hOOB : g = gridOOB
    · simp only [hOOB, if_true, if_pos rfl]
    · simp only [hOOB, if_false]
      refine foldl_congr_mem ?_
      intro b2 i hi
      obtain ⟨hi0, hiN⟩ := hsub g i hi
      rw [hsp i hi0 hiN, hsv i hi0 hiN]
      exact if_congr (hinj i hi0 hiN).symm rfl rfl
  simp only [updateVelNeighborSearch]
  rw [hspk, hacc]
  simp only [updateVelocities]
  rw [hsv k hk0 hkN]



/-- C10: after a coherent-grid step (from a state whose cell tables hold
the sentinel, as the reset contract provides), slot `k` of the current
position and velocity buffers holds exactly the integrated state of the
agent that occupied slot `particleArrayIndices[k]` before the step — the
same state a scattered-grid step from the same initial state produces for
that agent — and the slot-to-agent map is a bijection of `[0, N)`, so the
agent-state multiset is exactly the permuted image of the scattered-grid
result. -/
theorem coherent_matches_scattered (rsqrt : ℚ → ℚ) (dt : ℚ) (s : SimState)
    (hS : ∀ c, s.gridCellStartIndices c = -1)
    (hE : ∀ c, s.gridCellEndIndices c = -1)
    (k : ℤ) (hk0 : 0 ≤ k) (hkN : k < (s.numObjects : ℤ)) :
    (0 ≤ (gridPipeline s).arrIdx k ∧ (gridPipeline s).arrIdx k < (s.numObjects : ℤ)) ∧
    (∀ j : ℤ, 0 ≤ j → j < (s.numObjects : ℤ) →
      (gridPipeline s).arrIdx j = (gridPipeline s).arrIdx k → j = k) ∧
    (stepSimulationCoherentGrid rsqrt dt s).pos k =
      (stepSimulationScatteredGrid rsqrt dt s).pos ((gridPipeline s).arrIdx k) ∧
    (stepSimulationCoherentGrid rsqrt dt s).vel1 k =
      (stepSimulationScatteredGrid rsqrt dt s).vel1 ((gridPipeline s).arrIdx k) := by
  obtain ⟨hbounds, hinj⟩ := gridPipeline_arrIdx_facts s
  have hpk := hbounds k hk0 hkN
  have hsub := gridPipeline_subset s hS hE
  have hiff : ∀ i : ℤ, 0 ≤ i → i < (s.numObjects : ℤ) →
      ((gridPipeline s).arrIdx i = (gridPipeline s).arrIdx k ↔ i = k) :=
    fun i h1 h2 => ⟨fun he => hinj i k h1 h2 hk0 hkN he, fun he => by rw [he]⟩
  refine ⟨hpk, fun j hj0 hjN he => hinj j k hj0 hjN hk0 hkN he, ?_, ?_⟩
  · simp only [stepSimulationCoherentGrid, stepSimulationScatteredGrid]
    simp only [if_pos (And.intro hk0 hkN), if_pos (And.intro hpk.1 hpk.2)]
    refine congrArg _ ?_
    exact updateVelNS_coherent_eq rsqrt gridSideCount gridMinimum gridInverseCellWidth
      (gridPipeline s).cellStart (gridPipeline s).cellEnd (s.numObjects : ℤ)
      (gridPipeline s).arrIdx s.pos s.vel1 _ _ k hk0 hkN hsub
      (fun i h1 h2 => if_pos ⟨h1, h2⟩) (fun i h1 h2 => if_pos ⟨h1, h2⟩) hiff
  · simp only [stepSimulationCoherentGrid, stepSimulationScatteredGrid]
    simp only [if_pos (And.intro hk0 hkN), if_pos (And.intro hpk.1 hpk.2)]
    exact updateVelNS_coherent_eq rsqrt gridSideCount gridMinimum gridInverseCellWidth
      (gridPipeline s).cellStart (gridPipeline s).cellEnd (s.numObjects : ℤ)
      (gridPipeline s).arrIdx s.pos s.vel1 _ _ k hk0 hkN hsub
      (fun i h1 h2 => if_pos ⟨h1, h2⟩) (fun i h1 h2 => if_pos ⟨h1, h2⟩) hiff


theorem coherent_matches_scattered_witness :
    (0 ≤ (gridPipeline oneAgentState).arrIdx 0 ∧
      (gridPipeline oneAgentState).arrIdx 0 < (oneAgentState.numObjects : ℤ)) ∧
    (∀ j : ℤ, 0 ≤ j → j < (oneAgentState.numObjects : ℤ) →
      (gridPipeline oneAgentState).arrIdx j = (gridPipeline oneAgentState).arrIdx 0 →
        j = 0) ∧
    (stepSimulationCoherentGrid (fun _ => 0) 1 oneAgentState).pos 0 =
      (stepSimulationScatteredGrid (fun _ => 0) 1 oneAgentState).pos
        ((gridPipeline oneAgentState).arrIdx 0) ∧
    (stepSimulationCoherentGrid (fun _ => 0) 1 oneAgentState).vel1 0 =
      (stepSimulationScatteredGrid (fun _ => 0) 1 oneAgentState).vel1
        ((gridPipeline oneAgentState).arrIdx 0) :=
  coherent_matches_scattered (fun _ => 0) 1 oneAgentState (fun _ => rfl) (fun _ => rfl) 0
    (by norm_num) (by norm_num [oneAgentState])

end Boids
